import Mathlib

/-!
Verification of `src/utils/sheets_parser.py` (SUSTAIN-ECS/ECS-LCA).

The module drives the external `lca_algebraic` (`agb`) LCA framework from
spreadsheet rows.  We shallowly embed the four procedures of the file:

* `find_activity`            (resolver, source lines 5-31)
* `process_parameters`       (parameter builder, lines 35-90)
* `create_custom_activities` (custom/modified activity builder, lines 94-195)
* `create_foreground`        (foreground builder, lines 197-231)

Modelling decisions, all driven by the source:

* Pandas cells that may be `NaN` are `Option String`; `pd.notna`/`pd.isna`
  become `Option.isSome`/`Option.isNone`.
* Every call into the external framework (`agb.findActivity`,
  `agb.findTechAct`, `agb.newFloatParam`, `agb.newBoolParam`,
  `agb.newEnumParam`, `agb.newActivity`, `agb.copyActivity`,
  `updateExchanges`) and Python `eval` of a parameter expression is an
  opaque field of an environment record `Env`.  A lookup or creation that
  raises in Python is modelled by the field returning `none`
  (`agb.findActivity`/`findTechAct` raise on failure and do not return
  `None`, so the defensive `is None` test at source line 161 is
  unreachable and has no counterpart here); a framework call performed
  only for its side effect succeeds iff the corresponding `...Ok` field
  returns `true`.
* `print` diagnostics become `LogEvent` values collected in a list;
  calls that mutate the framework databases become `FwCall` values
  collected in a separate trace list.  The embedded functions are total,
  which reflects that in the source every failure of the modelled
  failure kinds is caught by a `try/except` (or short-circuited by a
  `None` check) inside the function.
* The Python `dict` used for the parameter registry is an association
  list to which writes are prepended (lookup finds the most recent
  write), so the trace of writes stays observable.
* The Python `dict` used for accumulated exchanges keeps insertion
  order; it is an association list updated in place (`accumulate`).
-/

/-- Activity handles returned by the external framework. -/
abbrev Activity := Nat

/-- Parameter handles (the values stored in the registry and summed as
exchange amounts once evaluated). -/
abbrev Param := Int

/-- The shared parameter registry: a Python `dict` from composite
parameter name to parameter handle, with the most recent write first. -/
abbrev Registry := List (String × Param)

/-- One row of a parameter sheet, with the columns read by
`process_parameters`: `EI activity name`, `parameter number`, `Type`,
`Default`, `Min`, `Max`, `Std`, `Distrib`, `Description`, `Label`,
`Values`, `Weights`. -/
structure ParamRow where
  eiActivityName : Option String
  paramNumber : String
  typ : String
  defaultVal : Option String
  minVal : Option String
  maxVal : Option String
  stdVal : Option String
  distrib : Option String
  description : Option String
  label : Option String
  valuesStr : Option String
  weightsStr : Option String
  deriving DecidableEq, Repr

/-- One row of an activity sheet (custom, modified or foreground), with
the columns read by the activity builders: `EI activity name`, `loc`,
`parameter number`, `LCA algebraic name`, `Custom process name`,
`Modified process name`. -/
structure ActRow where
  eiActivityName : Option String
  loc : Option String
  paramNumber : String
  lcaName : Option String
  customName : Option String
  modifiedName : Option String
  deriving DecidableEq, Repr

/-- One row of the sheet-metadata table `custom_meta_data_DF`, with the
attributes read by `create_custom_activities`: `priority`, `type`,
`location`, `unit`, `original EI activity name`,
`original EI activity location`. -/
structure SheetMeta where
  priority : Int
  typ : String
  location : String
  unit : String
  originalName : String
  originalLoc : String
  deriving DecidableEq, Repr

/-- Diagnostics printed by the source; one constructor per `print`
site. -/
inductive LogEvent where
  | findModifiedFailed (name db : String)
  | findCustomFailed (name db : String)
  | findBaseFailed (name : String) (loc : Option String)
  | paramSkipRowNaN (sheet : String)
  | paramCreated (name : String)
  | paramError (name : String)
  | processingSheet (sheet : String)
  | customTerminator (sheet : String)
  | customUnresolved (sheet : String)
  | customEvalError (sheet : String)
  | customCreateError (sheet : String)
  | copiedActivity (name : String)
  | modifiedEvalAmount (name : Option String)
  | modifiedEvalError (expr : String)
  | updatedExchanges (name : String)
  | updateExchangesError (name : String)
  | copyOrUpdateError (name : String)
  | finishedAllSheets
  | foregroundStop
  | foregroundUnresolved (name : Option String)
  | foregroundEvalError (name : Option String)
  | activityCreated (name : Option String)
  | foregroundCreateError (name : Option String)
  deriving DecidableEq, Repr

/-- Mutating calls issued to the external framework. -/
inductive FwCall where
  | newActivity (db : String) (name : Option String) (unit : String)
      (exchanges : List (Activity × Param))
  | copyActivity (db : String) (orig : Activity) (newName : String)
  | updateExchanges (act : Activity) (exchanges : List (Option String × Param))
  deriving DecidableEq, Repr

/-- The opaque external world: `lca_algebraic` plus Python `eval`.
A lookup/creation field returning `none` models the Python call raising
an exception; an `...Ok` field returning `false` models the
corresponding side-effecting call raising. -/
structure Env where
  findActivityDb : String → String → Option Activity
  findTechActLoc : String → String → Option Activity
  findTechActName : String → Option Activity
  newFloatParam : String → ParamRow → Option Param
  newBoolParam : String → ParamRow → Option Param
  newEnumParam : String → ParamRow → Option Param
  evalExpr : Registry → String → Option Param
  newActivityOk : String → Option String → String → List (Activity × Param) → Bool
  copyActivity : String → Activity → String → Option Activity
  updateExchangesOk : Activity → List (Option String × Param) → Bool

/-- Source lines 24-31: the fallback lookup in the base (Ecoinvent)
database, location-aware exactly when `location` is non-missing; a
raised exception is logged and turned into `None`. -/
def findActivityBase (env : Env) (eiActivityName : String)
    (location : Option String) : Option Activity × List LogEvent :=
  match location with
  | some l =>
    match env.findTechActLoc eiActivityName l with
    | some a => (some a, [])
    | none => (none, [LogEvent.findBaseFailed eiActivityName (some l)])
  | none =>
    match env.findTechActName eiActivityName with
    | some a => (some a, [])
    | none => (none, [LogEvent.findBaseFailed eiActivityName none])

/-- Source lines 17-31: the custom-process lookup followed by the base
fallback. -/
def findActivityCustomStep (env : Env) (eiActivityName : String)
    (location : Option String) (customProcessName : Option String)
    (customDb : String) : Option Activity × List LogEvent :=
  match customProcessName with
  | some c =>
    match env.findActivityDb c customDb with
    | some a => (some a, [])
    | none =>
      let (r, l) := findActivityBase env eiActivityName location
      (r, LogEvent.findCustomFailed c customDb :: l)
  | none => findActivityBase env eiActivityName location

/-- Source lines 5-31, `find_activity`: resolve an activity, trying the
modified-activity name first, then the custom-process name, then the
base database. -/
def find_activity (env : Env) (eiActivityName : String)
    (location : Option String) (customProcessName : Option String)
    (modifiedActivityName : Option String) (customDb : String) :
    Option Activity × List LogEvent :=
  match modifiedActivityName with
  | some m =>
    match env.findActivityDb m customDb with
    | some a => (some a, [])
    | none =>
      let (r, l) :=
        findActivityCustomStep env eiActivityName location customProcessName customDb
      (r, LogEvent.findModifiedFailed m customDb :: l)
  | none => findActivityCustomStep env eiActivityName location customProcessName customDb

/-- Remove leading and trailing whitespace from a character list
(Python `str.strip`). -/
def trimChars (l : List Char) : List Char :=
  ((l.dropWhile Char.isWhitespace).reverse.dropWhile Char.isWhitespace).reverse

/-- The type-tag normalisation applied by source line 43
(`.astype(str).str.strip().str.lower()`): strip surrounding whitespace,
then lower-case each character. -/
def normType (s : String) : String :=
  String.mk ((trimChars s.data).map Char.toLower)

/-- The composite parameter name of source lines 46, 121, 174 and 203:
`str(sheet_name) + "_" + str(row["parameter number"])`. -/
def compositeName (sheetName paramNumber : String) : String :=
  sheetName ++ "_" ++ paramNumber

/-- Source lines 53-84: construct one parameter from a row according to
its normalised type tag (line 47 re-applies strip and lower to the
already-normalised column of line 43).  The three `agb.new...Param`
calls — including the `eval` of `Values`/`Weights` feeding the enum
branch — are opaque environment calls; `.error` is the Python exception
caught at line 89 (either a raised framework error or the explicit
`ValueError` for an unsupported type). -/
def mkParam (env : Env) (paramName : String) (row : ParamRow) :
    Except Unit Param :=
  let paramType := normType (normType row.typ)
  if paramType = "float" then
    match env.newFloatParam paramName row with
    | some p => Except.ok p
    | none => Except.error ()
  else if paramType = "bool" then
    match env.newBoolParam paramName row with
    | some p => Except.ok p
    | none => Except.error ()
  else if paramType = "enum" then
    match env.newEnumParam paramName row with
    | some p => Except.ok p
    | none => Except.error ()
  else Except.error ()

/-- Source lines 35-90, `process_parameters`: iterate the rows of one
parameter sheet, breaking at the first row with a missing
`EI activity name`; on success register the parameter under its
composite name; on failure log and continue with the next row.
Returns the updated registry and the log. -/
def process_parameters (env : Env) (rows : List ParamRow)
    (parameterRegistry : Registry) (sheetName : String) :
    Registry × List LogEvent :=
  match rows with
  | [] => (parameterRegistry, [])
  | row :: rest =>
    if row.eiActivityName.isNone then
      (parameterRegistry, [LogEvent.paramSkipRowNaN sheetName])
    else
      let paramName := compositeName sheetName row.paramNumber
      match mkParam env paramName row with
      | Except.ok p =>
        let (r, l) :=
          process_parameters env rest ((paramName, p) :: parameterRegistry) sheetName
        (r, LogEvent.paramCreated paramName :: l)
      | Except.error _ =>
        let (r, l) := process_parameters env rest parameterRegistry sheetName
        (r, LogEvent.paramError paramName :: l)

/-- Lookup in the registry dict (most recent write wins). -/
def registryLookup (r : Registry) (k : String) : Option Param :=
  (r.find? (fun p => p.1 = k)).map (fun p => p.2)

/-- Source lines 139-142: Python-dict accumulation of an exchange
amount — add `v` to the existing entry for `a`, or append a new entry
(insertion order preserved). -/
def accumulate (m : List (Activity × Param)) (a : Activity) (v : Param) :
    List (Activity × Param) :=
  if m.any (fun p => p.1 = a) then
    m.map (fun p => if p.1 = a then (p.1, p.2 + v) else p)
  else m ++ [(a, v)]

/-- The amount accumulated for activity `a` (0 when absent). -/
def lookupAmt (m : List (Activity × Param)) (a : Activity) : Param :=
  ((m.find? (fun p => p.1 = a)).map (fun p => p.2)).getD 0

/-- Source lines 114-145: the row loop of a custom sheet.  Breaks at
the first row whose `EI activity name` is missing; resolves each other
row through `find_activity`, skips it when unresolved, evaluates its
parameter expression against the registry, skips on evaluation failure,
and otherwise accumulates the amount for the resolved activity. -/
def processCustomRows (env : Env) (registry : Registry) (db sheetName : String)
    (rows : List ActRow) (acc : List (Activity × Param)) :
    List (Activity × Param) × List LogEvent :=
  match rows with
  | [] => (acc, [])
  | row :: rest =>
    match row.eiActivityName with
    | none => (acc, [LogEvent.customTerminator sheetName])
    | some ei =>
      let expr := compositeName sheetName row.paramNumber
      let (found, lkLog) :=
        find_activity env ei row.loc row.customName row.modifiedName db
      match found with
      | none =>
        let (m, l) := processCustomRows env registry db sheetName rest acc
        (m, lkLog ++ LogEvent.customUnresolved sheetName :: l)
      | some act =>
        match env.evalExpr registry expr with
        | none =>
          let (m, l) := processCustomRows env registry db sheetName rest acc
          (m, lkLog ++ LogEvent.customEvalError sheetName :: l)
        | some v =>
          let (m, l) :=
            processCustomRows env registry db sheetName rest (accumulate acc act v)
          (m, lkLog ++ l)

/-- Source lines 108-151: processing of one sheet whose metadata type
is `custom` — run the row loop, then make exactly one
`agb.newActivity(OS_database, sheet_name, sheet_unit, exchanges=...)`
call with the accumulated exchanges (logging if it raises). -/
def processCustomSheet (env : Env) (registry : Registry) (db sheetName : String)
    (meta : SheetMeta) (rows : List ActRow) : List LogEvent × List FwCall :=
  let (acc, rowLog) := processCustomRows env registry db sheetName rows []
  let createLog :=
    if env.newActivityOk db (some sheetName) meta.unit acc then []
    else [LogEvent.customCreateError sheetName]
  (LogEvent.processingSheet sheetName :: rowLog ++ createLog,
    [FwCall.newActivity db (some sheetName) meta.unit acc])

/-- Python-dict assignment `exchanges_dict[key] = amount` of source
line 179 (overwrite, insertion order preserved). -/
def dictInsert (m : List (Option String × Param)) (k : Option String)
    (v : Param) : List (Option String × Param) :=
  if m.any (fun p => p.1 = k) then
    m.map (fun p => if p.1 = k then (p.1, v) else p)
  else m ++ [(k, v)]

/-- Source lines 172-182: the row loop of a modified sheet.  Every row
of the sheet is visited (there is no terminator check); each row's
parameter expression is evaluated and, on success, an exchange entry
keyed by the row's `EI activity name` cell is written (overwriting any
earlier entry with the same key); on failure the row is logged and
skipped. -/
def processModifiedRows (env : Env) (registry : Registry)
    (modifiedActivityName : String) (rows : List ActRow)
    (exchangesDict : List (Option String × Param)) :
    List (Option String × Param) × List LogEvent :=
  match rows with
  | [] => (exchangesDict, [])
  | row :: rest =>
    let expr := compositeName modifiedActivityName row.paramNumber
    match env.evalExpr registry expr with
    | some amount =>
      let (m, l) := processModifiedRows env registry modifiedActivityName rest
        (dictInsert exchangesDict row.eiActivityName amount)
      (m, LogEvent.modifiedEvalAmount row.eiActivityName :: l)
    | none =>
      let (m, l) := processModifiedRows env registry modifiedActivityName rest
        exchangesDict
      (m, LogEvent.modifiedEvalError expr :: l)

/-- Source lines 153-192: processing of one sheet whose metadata type
is `modified` — find the original activity (always passing the
metadata location), copy it under the sheet name, build the replacement
exchanges from the sheet rows and apply one batch `updateExchanges`
call; any raised step is logged and processing moves to the next
sheet. -/
def processModifiedSheet (env : Env) (registry : Registry) (db sheetName : String)
    (meta : SheetMeta) (rows : List ActRow) : List LogEvent × List FwCall :=
  match env.findTechActLoc meta.originalName meta.originalLoc with
  | none => ([LogEvent.copyOrUpdateError sheetName], [])
  | some original =>
    match env.copyActivity db original sheetName with
    | none => ([LogEvent.copyOrUpdateError sheetName], [])
    | some newAct =>
      let (exDict, rowLog) := processModifiedRows env registry sheetName rows []
      let updLog :=
        if env.updateExchangesOk newAct exDict then
          [LogEvent.updatedExchanges sheetName]
        else [LogEvent.updateExchangesError sheetName]
      (LogEvent.copiedActivity sheetName :: rowLog ++ updLog,
        [FwCall.copyActivity db original sheetName,
         FwCall.updateExchanges newAct exDict])

/-- Source lines 106-192: the body of the sheet loop — the sheet is
handled by the custom path when its metadata type is `custom` and by
the modified path when it is `modified` (two independent `if`s in the
source). -/
def processSheet (env : Env) (registry : Registry) (db : String)
    (sheetDfs : String → List ActRow) (p : String × SheetMeta) :
    List LogEvent × List FwCall :=
  let c :=
    if p.2.typ = "custom" then
      processCustomSheet env registry db p.1 p.2 (sheetDfs p.1)
    else ([], [])
  let m :=
    if p.2.typ = "modified" then
      processModifiedSheet env registry db p.1 p.2 (sheetDfs p.1)
    else ([], [])
  (c.1 ++ m.1, c.2 ++ m.2)

/-- The sort key of `sort_values(by="priority")`: comparison of the
`priority` attribute. -/
def priorityLe (a b : String × SheetMeta) : Bool :=
  a.2.priority ≤ b.2.priority

/-- Source lines 99-104: `custom_meta_data_DF.sort_values(by="priority")`
— the sheet order used by `create_custom_activities`, ascending in the
`priority` attribute. -/
def sortedSheets (meta : List (String × SheetMeta)) : List (String × SheetMeta) :=
  meta.mergeSort priorityLe

/-- Source lines 94-195, `create_custom_activities`: process the sheets
of the metadata table in ascending priority order. -/
def create_custom_activities (env : Env) (meta : List (String × SheetMeta))
    (sheetDfs : String → List ActRow) (db : String) (registry : Registry) :
    List LogEvent × List FwCall :=
  let step : List (String × SheetMeta) → List LogEvent × List FwCall :=
    fun sheets =>
      sheets.foldr
        (fun p r =>
          let s := processSheet env registry db sheetDfs p
          (s.1 ++ r.1, s.2 ++ r.2))
        ([LogEvent.finishedAllSheets], [])
  step (sortedSheets meta)

/-- Source lines 197-231, `create_foreground`: iterate the rows of the
selected foreground sheet, stopping at the first row with a missing
`EI activity name`; each other row independently resolves one source
activity and issues one `agb.newActivity` call whose single exchange is
the row's evaluated parameter expression, named by the row's
`LCA algebraic name` cell with the literal unit string `unit`. -/
def create_foreground (env : Env) (rows : List ActRow)
    (selectedForeground db : String) (registry : Registry) :
    List LogEvent × List FwCall :=
  match rows with
  | [] => ([], [])
  | row :: rest =>
    match row.eiActivityName with
    | none => ([LogEvent.foregroundStop], [])
    | some ei =>
        let expr := compositeName selectedForeground row.paramNumber
        let (found, lkLog) :=
          find_activity env ei row.loc row.customName row.modifiedName db
        match found with
        | none =>
          let (l, f) := create_foreground env rest selectedForeground db registry
          (lkLog ++ LogEvent.foregroundUnresolved row.lcaName :: l, f)
        | some act =>
          match env.evalExpr registry expr with
          | none =>
            let (l, f) := create_foreground env rest selectedForeground db registry
            (lkLog ++ LogEvent.foregroundEvalError row.lcaName :: l, f)
          | some v =>
            let exchanges := [(act, v)]
            let (l, f) := create_foreground env rest selectedForeground db registry
            let callLog :=
              if env.newActivityOk db row.lcaName "unit" exchanges then
                [LogEvent.activityCreated row.lcaName]
              else [LogEvent.foregroundCreateError row.lcaName]
            (lkLog ++ callLog ++ l,
              FwCall.newActivity db row.lcaName "unit" exchanges :: f)

/-! ### Concrete environments and data used by witnesses and
counterexamples -/

/-- An environment in which every lookup and framework call succeeds:
`mod1`/`cust1` are in the custom database `OS`, `act1` is in the base
database, parameter creation always succeeds offering distinct handles,
and expression evaluation is registry lookup. -/
def exEnv : Env where
  findActivityDb := fun n db =>
    if db = "OS" && n = "mod1" then some 11
    else if db = "OS" && n = "cust1" then some 12
    else none
  findTechActLoc := fun n l => if n = "act1" && l = "GLO" then some 21 else none
  findTechActName := fun n => if n = "act1" then some 22 else none
  newFloatParam := fun _ _ => some 1
  newBoolParam := fun _ _ => some 2
  newEnumParam := fun _ _ => some 3
  evalExpr := fun r e => registryLookup r e
  newActivityOk := fun _ _ _ _ => true
  copyActivity := fun _ a _ => some (a + 100)
  updateExchangesOk := fun _ _ => true

/-- An environment in which every lookup fails (raises). -/
def failEnv : Env where
  findActivityDb := fun _ _ => none
  findTechActLoc := fun _ _ => none
  findTechActName := fun _ => none
  newFloatParam := fun _ _ => none
  newBoolParam := fun _ _ => none
  newEnumParam := fun _ _ => none
  evalExpr := fun _ _ => none
  newActivityOk := fun _ _ _ _ => false
  copyActivity := fun _ _ _ => none
  updateExchangesOk := fun _ _ => false

/-! ### C1, C8, C9 — the activity resolver -/

/-- **C1.** Resolution order of `find_activity`: (a) a non-missing
modified-activity name whose custom-database lookup succeeds is
returned at once, with no further lookup and no failure logged, for
every environment — so in preference to any custom-process or base
match; (b) when the modified-activity name is missing, a non-missing
custom-process name that resolves successfully is returned with no base
lookup logged; (c) when the modified-activity lookup fails, a
non-missing custom-process name that resolves successfully is returned
next, again before any base lookup. -/
theorem find_activity_resolution_order (env : Env) (ei : String)
    (loc : Option String) (db : String) :
    (∀ (customName : Option String) (m : String) (a : Activity),
      env.findActivityDb m db = some a →
      find_activity env ei loc customName (some m) db = (some a, [])) ∧
    (∀ (c : String) (b : Activity),
      env.findActivityDb c db = some b →
      find_activity env ei loc (some c) none db = (some b, [])) ∧
    (∀ (m c : String) (b : Activity),
      env.findActivityDb m db = none →
      env.findActivityDb c db = some b →
      find_activity env ei loc (some c) (some m) db =
        (some b, [LogEvent.findModifiedFailed m db])) := by
  refine ⟨fun customName m a ha => ?_, fun c b hb => ?_, fun m c b hm hc => ?_⟩
  · simp [find_activity, ha]
  · simp [find_activity, findActivityCustomStep, hb]
  · simp [find_activity, findActivityCustomStep, hm, hc]

/-- Witness for C1 at a concrete environment: `mod1` resolves to 11 and
wins outright; with the modified name absent or failing, `cust1`
resolves to 12 and wins next. -/
theorem find_activity_resolution_order_witness :
    (exEnv.findActivityDb "mod1" "OS" = some 11 ∧
      find_activity exEnv "act1" (some "GLO") (some "cust1") (some "mod1") "OS" =
        (some 11, [])) ∧
    (exEnv.findActivityDb "cust1" "OS" = some 12 ∧
      find_activity exEnv "act1" (some "GLO") (some "cust1") none "OS" =
        (some 12, [])) ∧
    (exEnv.findActivityDb "missing" "OS" = none ∧
      find_activity exEnv "act1" (some "GLO") (some "cust1") (some "missing") "OS" =
        (some 12, [LogEvent.findModifiedFailed "missing" "OS"])) :=
  ⟨⟨by decide,
    (find_activity_resolution_order exEnv "act1" (some "GLO") "OS").1
      (some "cust1") "mod1" 11 (by decide)⟩,
   ⟨by decide,
    (find_activity_resolution_order exEnv "act1" (some "GLO") "OS").2.1
      "cust1" 12 (by decide)⟩,
   ⟨by decide,
    (find_activity_resolution_order exEnv "act1" (some "GLO") "OS").2.2
      "missing" "cust1" 12 (by decide) (by decide)⟩⟩

/-- **C8.** When the modified-activity lookup, the custom-process
lookup and the base-database lookup all fail (raise), `find_activity`
returns `None` and the log holds exactly one entry per failed lookup;
the function is total, so no exception reaches the caller. -/
theorem find_activity_all_lookups_fail (env : Env) (ei : String)
    (loc : Option String) (m c db : String)
    (hm : env.findActivityDb m db = none)
    (hc : env.findActivityDb c db = none)
    (hb : (match loc with
           | some l => env.findTechActLoc ei l
           | none => env.findTechActName ei) = none) :
    find_activity env ei loc (some c) (some m) db =
      (none, [LogEvent.findModifiedFailed m db, LogEvent.findCustomFailed c db,
              LogEvent.findBaseFailed ei loc]) := by
  cases loc with
  | none => simp_all [find_activity, findActivityCustomStep, findActivityBase]
  | some l => simp_all [find_activity, findActivityCustomStep, findActivityBase]

/-- Witness for C8: in the all-failing environment every lookup fails
and the resolver returns `none` with the three failure log entries. -/
theorem find_activity_all_lookups_fail_witness :
    failEnv.findActivityDb "m" "OS" = none ∧
    failEnv.findActivityDb "c" "OS" = none ∧
    failEnv.findTechActLoc "e" "GLO" = none ∧
    find_activity failEnv "e" (some "GLO") (some "c") (some "m") "OS" =
      (none, [LogEvent.findModifiedFailed "m" "OS",
              LogEvent.findCustomFailed "c" "OS",
              LogEvent.findBaseFailed "e" (some "GLO")]) :=
  ⟨by decide, by decide, by decide,
   find_activity_all_lookups_fail failEnv "e" (some "GLO") "m" "c" "OS"
     (by decide) (by decide) (by decide)⟩

/-- **C9.** When neither the modified-activity name nor the
custom-process name yields a match (each is missing or its lookup
fails), the base fallback is location-aware exactly when a location is
present: with a location the result is that of the name-and-location
lookup, and without one it is that of the name-only lookup. -/
theorem find_activity_base_fallback_location (env : Env) (ei : String)
    (loc : Option String) (customName modifiedName : Option String) (db : String)
    (hm : ∀ m, modifiedName = some m → env.findActivityDb m db = none)
    (hc : ∀ c, customName = some c → env.findActivityDb c db = none) :
    (∀ l, loc = some l →
      (find_activity env ei loc customName modifiedName db).1 =
        env.findTechActLoc ei l) ∧
    (loc = none →
      (find_activity env ei loc customName modifiedName db).1 =
        env.findTechActName ei) := by
  have hbase : ∀ l0 : Option String,
      (findActivityBase env ei l0).1 =
        (match l0 with
         | some l => env.findTechActLoc ei l
         | none => env.findTechActName ei) := by
    intro l0
    cases l0 with
    | none => cases h : env.findTechActName ei <;> simp [findActivityBase, h]
    | some l => cases h : env.findTechActLoc ei l <;> simp [findActivityBase, h]
  have hstep : (find_activity env ei loc customName modifiedName db).1 =
      (findActivityBase env ei loc).1 := by
    cases modifiedName with
    | none =>
      cases customName with
      | none => simp [find_activity, findActivityCustomStep]
      | some c =>
        simp [find_activity, findActivityCustomStep, hc c rfl]
    | some m =>
      cases customName with
      | none =>
        simp [find_activity, findActivityCustomStep, hm m rfl]
      | some c =>
        simp [find_activity, findActivityCustomStep, hm m rfl, hc c rfl]
  constructor
  · intro l hl
    subst hl
    rw [hstep, hbase]
  · intro hl
    subst hl
    rw [hstep, hbase]

/-- Witness for C9: with every custom-database lookup failing, the
resolver's answer coincides with the location-aware base lookup when a
location is given and with the name-only base lookup when not. -/
theorem find_activity_base_fallback_location_witness :
    (∀ m, (some "m" : Option String) = some m → exEnv.findActivityDb m "OS" = none) ∧
    ((find_activity exEnv "act1" (some "GLO") (some "c") (some "m") "OS").1 =
      exEnv.findTechActLoc "act1" "GLO") ∧
    ((find_activity exEnv "act1" none (some "c") (some "m") "OS").1 =
      exEnv.findTechActName "act1") :=
  ⟨fun m hm => by cases hm; decide,
   (find_activity_base_fallback_location exEnv "act1" (some "GLO") (some "c")
      (some "m") "OS" (fun m hm => by cases hm; decide)
      (fun c hc => by cases hc; decide)).1 "GLO" rfl,
   (find_activity_base_fallback_location exEnv "act1" none (some "c")
      (some "m") "OS" (fun m hm => by cases hm; decide)
      (fun c hc => by cases hc; decide)).2 rfl⟩

/-! ### C2 — the terminator row -/

/-- A parameter-sheet row whose `EI activity name` cell is missing
(`NaN`); the other cells print as the string `nan`. -/
def termParamRow : ParamRow :=
  { eiActivityName := none, paramNumber := "nan", typ := "nan",
    defaultVal := none, minVal := none, maxVal := none, stdVal := none,
    distrib := none, description := none, label := none,
    valuesStr := none, weightsStr := none }

/-- A sheet row whose `EI activity name` cell is missing (`NaN`); its
`parameter number` cell prints as the string `nan`. -/
def termActRow : ActRow :=
  { eiActivityName := none, loc := none, paramNumber := "nan",
    lcaName := none, customName := none, modifiedName := none }

/-- A plain data row of an activity sheet. -/
def dataActRow : ActRow :=
  { eiActivityName := some "x", loc := none, paramNumber := "2",
    lcaName := none, customName := none, modifiedName := none }

/-- Metadata of a concrete modified sheet. -/
def modMeta : SheetMeta :=
  { priority := 1, typ := "modified", location := "GLO", unit := "kg",
    originalName := "act1", originalLoc := "GLO" }

/-- Counterexample to **C2**: in the modified-sheet row loop the claim
fails — a first row with a missing `EI activity name` does *not*
terminate the sheet.  With the sheet `mod` holding the terminator row
followed by a data row whose parameter `mod_2` evaluates to 7, the
batch `updateExchanges` call issued for the copied activity contains
the later row's exchange, so the later row was processed. -/
theorem modified_sheet_ignores_terminator :
    (processModifiedSheet exEnv [("mod_2", 7)] "OS" "mod" modMeta
        [termActRow, dataActRow]).2 =
      [FwCall.copyActivity "OS" 21 "mod",
       FwCall.updateExchanges 121 [(some "x", 7)]] := by
  decide

/-- **C2 (amended).** The terminator convention holds for the parameter
builder, the custom-sheet row loop and the foreground builder: for each
of them, a first row with a missing `EI activity name` ends the sheet
immediately — the state accumulated so far (registry, exchange map) is
returned unchanged and no later row is processed.  The modified-sheet
row loop, by contrast, has no terminator check: it visits every row of
the sheet (one log entry per row). -/
theorem terminator_stops_sheet_processing (env : Env) (t : ActRow)
    (tp : ParamRow) (ht : t.eiActivityName = none)
    (htp : tp.eiActivityName = none) :
    (∀ (rest : List ParamRow) (reg : Registry) (s : String),
      process_parameters env (tp :: rest) reg s =
        (reg, [LogEvent.paramSkipRowNaN s])) ∧
    (∀ (rest : List ActRow) (reg : Registry) (db s : String)
        (acc : List (Activity × Param)),
      processCustomRows env reg db s (t :: rest) acc =
        (acc, [LogEvent.customTerminator s])) ∧
    (∀ (rest : List ActRow) (reg : Registry) (db s : String),
      create_foreground env (t :: rest) s db reg =
        ([LogEvent.foregroundStop], [])) ∧
    (∀ (rows : List ActRow) (reg : Registry) (s : String)
        (d : List (Option String × Param)),
      (processModifiedRows env reg s rows d).2.length = rows.length) := by
  refine ⟨fun rest reg s => ?_, fun rest reg db s acc => ?_,
    fun rest reg db s => ?_, fun rows => ?_⟩
  · simp [process_parameters, htp]
  · simp [processCustomRows, ht]
  · simp [create_foreground, ht]
  · induction rows with
    | nil => intro reg s d; simp [processModifiedRows]
    | cons row rest ih =>
      intro reg s d
      simp only [processModifiedRows]
      cases h : env.evalExpr reg (compositeName s row.paramNumber) <;>
        simp [h, ih]

/-- Witness for C2 (amended) on concrete data: a terminator-first sheet
leaves the registry, the exchange accumulator and the foreground trace
untouched, while the modified row loop logs one event for each of the
two rows of `[termActRow, dataActRow]`. -/
theorem terminator_stops_sheet_processing_witness :
    termActRow.eiActivityName = none ∧
    process_parameters exEnv [termParamRow] [("keep", 5)] "s" =
      ([("keep", 5)], [LogEvent.paramSkipRowNaN "s"]) ∧
    processCustomRows exEnv [] "OS" "s" [termActRow, dataActRow] [(9, 4)] =
      ([(9, 4)], [LogEvent.customTerminator "s"]) ∧
    (processModifiedRows exEnv [("mod_2", 7)] "mod" [termActRow, dataActRow]
        []).2.length = 2 := by
  have h := terminator_stops_sheet_processing exEnv termActRow termParamRow
    rfl rfl
  exact ⟨rfl, h.1 [] [("keep", 5)] "s", h.2.1 [dataActRow] [] "OS" "s" [(9, 4)],
    h.2.2.2 [termActRow, dataActRow] [("mod_2", 7)] "mod" []⟩

/-! ### C3 — accumulation of exchange amounts -/

/-- The contribution of one custom-sheet row to the accumulated amount
of activity `a`: its evaluated parameter expression when the row is not
skipped and resolves to `a`, and `0` otherwise (terminator, unresolved
activity, failed evaluation, or a different activity). -/
def rowContrib (env : Env) (registry : Registry) (db sheetName : String)
    (row : ActRow) (a : Activity) : Param :=
  match row.eiActivityName with
  | none => 0
  | some ei =>
    match (find_activity env ei row.loc row.customName row.modifiedName db).1 with
    | none => 0
    | some act =>
      if act = a then
        (env.evalExpr registry (compositeName sheetName row.paramNumber)).getD 0
      else 0

theorem find?_map_addkey_ne (m : List (Activity × Param)) (a b : Activity)
    (v : Param) (hab : a ≠ b) :
    (m.map (fun p => if p.1 = a then (p.1, p.2 + v) else p)).find?
        (fun p => p.1 = b) =
      m.find? (fun p => p.1 = b) := by
  induction m with
  | nil => rfl
  | cons p rest ih =>
    simp only [List.map_cons]
    by_cases hpb : p.1 = b
    · have hpa : ¬ p.1 = a := by rw [hpb]; exact fun h => hab h.symm
      rw [if_neg hpa, List.find?_cons_of_pos _ (by simpa using hpb),
        List.find?_cons_of_pos _ (by simpa using hpb)]
    · by_cases hpa : p.1 = a
      · rw [if_pos hpa]
        rw [List.find?_cons_of_neg _ (by simpa using hpb),
          List.find?_cons_of_neg _ (by simpa using hpb)]
        exact ih
      · rw [if_neg hpa, List.find?_cons_of_neg _ (by simpa using hpb),
          List.find?_cons_of_neg _ (by simpa using hpb)]
        exact ih

theorem lookupAmt_map_eq (m : List (Activity × Param)) (a : Activity)
    (v : Param) (ha : m.any (fun p => p.1 = a) = true) :
    lookupAmt (m.map (fun p => if p.1 = a then (p.1, p.2 + v) else p)) a =
      lookupAmt m a + v := by
  induction m with
  | nil => simp at ha
  | cons p rest ih =>
    simp only [List.map_cons]
    by_cases hpa : p.1 = a
    · rw [if_pos hpa]
      unfold lookupAmt
      rw [List.find?_cons_of_pos _ (by simpa using hpa),
        List.find?_cons_of_pos _ (by simpa using hpa)]
      simp
    · rw [if_neg hpa]
      have hrest : rest.any (fun p => p.1 = a) = true := by
        simpa [List.any_cons, hpa] using ha
      unfold lookupAmt
      rw [List.find?_cons_of_neg _ (by simpa using hpa),
        List.find?_cons_of_neg _ (by simpa using hpa)]
      exact ih hrest

/-- Effect of one Python-dict accumulation step on the amount held for
any activity. -/
theorem lookupAmt_accumulate (m : List (Activity × Param)) (a b : Activity)
    (v : Param) :
    lookupAmt (accumulate m a v) b =
      lookupAmt m b + (if a = b then v else 0) := by
  by_cases hmem : m.any (fun p => p.1 = a) = true
  · rw [accumulate, if_pos hmem]
    by_cases hab : a = b
    · subst hab
      simp [lookupAmt_map_eq m a v hmem]
    · unfold lookupAmt
      rw [find?_map_addkey_ne m a b v hab, if_neg hab]
      ring
  · rw [accumulate, if_neg hmem]
    have hnone : m.find? (fun p => p.1 = a) = none := by
      rw [List.find?_eq_none]
      intro x hx hxa
      exact hmem (List.any_eq_true.mpr ⟨x, hx, by simpa using hxa⟩)
    by_cases hab : a = b
    · subst hab
      unfold lookupAmt
      rw [List.find?_append, hnone]
      simp
    · unfold lookupAmt
      rw [List.find?_append]
      rw [if_neg hab]
      have h1 : List.find? (fun p => p.1 = b) [(a, v)] = none := by
        simp [hab]
      rw [h1]
      simp

theorem processCustomRows_lookupAmt (env : Env) (registry : Registry)
    (db sheetName : String) (rows : List ActRow)
    (acc : List (Activity × Param)) (a : Activity) :
    lookupAmt (processCustomRows env registry db sheetName rows acc).1 a =
      lookupAmt acc a +
        ((rows.takeWhile (fun r => r.eiActivityName.isSome)).map
          (fun r => rowContrib env registry db sheetName r a)).sum := by
  induction rows generalizing acc with
  | nil => simp [processCustomRows]
  | cons row rest ih =>
    cases hei : row.eiActivityName with
    | none =>
      simp [processCustomRows, hei, List.takeWhile_cons, rowContrib]
    | some ei =>
      simp only [processCustomRows, hei]
      cases hfind :
          (find_activity env ei row.loc row.customName row.modifiedName db) with
      | mk found lkLog =>
        cases found with
        | none =>
          simp only
          rw [ih acc]
          simp [List.takeWhile_cons, hei, rowContrib, hfind]
        | some act =>
          cases heval :
              env.evalExpr registry (compositeName sheetName row.paramNumber) with
          | none =>
            simp only [heval]
            rw [ih acc]
            simp [List.takeWhile_cons, hei, rowContrib, hfind, heval]
          | some v =>
            simp only [heval, Prod.map]
            rw [ih (accumulate acc act v)]
            rw [lookupAmt_accumulate]
            have hcontrib : rowContrib env registry db sheetName row a =
                if act = a then v else 0 := by
              simp [rowContrib, hei, hfind, heval]
            simp only [List.takeWhile_cons, hei, Option.isSome_some, if_true,
              List.map_cons, List.sum_cons, hcontrib]
            ring

/-- Metadata of a concrete custom sheet. -/
def customMeta : SheetMeta :=
  { priority := 2, typ := "custom", location := "GLO", unit := "kg",
    originalName := "orig", originalLoc := "GLO" }

/-- First concrete custom-sheet row: base activity `act1`, parameter
number `1`. -/
def exRow1 : ActRow :=
  { eiActivityName := some "act1", loc := none, paramNumber := "1",
    lcaName := some "alg1", customName := none, modifiedName := none }

/-- Second concrete custom-sheet row: the same base activity `act1`,
parameter number `2`. -/
def exRow2 : ActRow :=
  { eiActivityName := some "act1", loc := none, paramNumber := "2",
    lcaName := some "alg2", customName := none, modifiedName := none }

/-- **C3.** For every custom sheet, the amount the row loop accumulates
for an activity equals the starting amount plus the sum of the
evaluated parameter expressions of all non-skipped processed rows
(those before the terminator) resolving to that activity; concretely,
two rows of the sheet `s` resolving to the same activity (handle 22)
with evaluated amounts 2 and 3 yield 5 for that activity in the
exchange map passed to the framework's create-activity call. -/
theorem custom_sheet_accumulates_sums :
    (∀ (env : Env) (registry : Registry) (db sheetName : String)
        (rows : List ActRow) (acc : List (Activity × Param)) (a : Activity),
      lookupAmt (processCustomRows env registry db sheetName rows acc).1 a =
        lookupAmt acc a +
          ((rows.takeWhile (fun r => r.eiActivityName.isSome)).map
            (fun r => rowContrib env registry db sheetName r a)).sum) ∧
    (processCustomSheet exEnv [("s_1", 2), ("s_2", 3)] "OS" "s" customMeta
        [exRow1, exRow2]).2 =
      [FwCall.newActivity "OS" (some "s") "kg" [(22, 5)]] :=
  ⟨processCustomRows_lookupAmt, by decide⟩

/-! ### C4 — the parameter registry key -/

/-- A custom-sheet metadata row of priority 1. -/
def metaP1 : SheetMeta :=
  { priority := 1, typ := "custom", location := "GLO", unit := "kg",
    originalName := "o1", originalLoc := "GLO" }

/-- A custom-sheet metadata row of priority 2. -/
def metaP2 : SheetMeta :=
  { priority := 2, typ := "custom", location := "GLO", unit := "kg",
    originalName := "o2", originalLoc := "GLO" }

/-- A custom-sheet metadata row of priority 3. -/
def metaP3 : SheetMeta :=
  { priority := 3, typ := "custom", location := "GLO", unit := "kg",
    originalName := "o3", originalLoc := "GLO" }

/-- **C6.** `create_custom_activities` processes the sheets of the
metadata table in ascending order of their `priority` attribute: the
processing order `sortedSheets` is a permutation of the table sorted by
priority; for a table with priorities `[2, 1, 3]` the sheets are
processed in priority order `[1, 2, 3]`, as also shown by the log of the
full builder run. -/
theorem sheets_processed_in_priority_order :
    (∀ meta : List (String × SheetMeta),
      (sortedSheets meta).Pairwise
        (fun a b => a.2.priority ≤ b.2.priority) ∧
      (sortedSheets meta).Perm meta) ∧
    sortedSheets [("a", metaP2), ("b", metaP1), ("c", metaP3)] =
      [("b", metaP1), ("a", metaP2), ("c", metaP3)] ∧
    (create_custom_activities exEnv
        [("a", metaP2), ("b", metaP1), ("c", metaP3)]
        (fun _ => []) "OS" []).1 =
      [LogEvent.processingSheet "b", LogEvent.processingSheet "a",
       LogEvent.processingSheet "c", LogEvent.finishedAllSheets] := by
  have htrans : ∀ a b c : String × SheetMeta,
      priorityLe a b → priorityLe b c → priorityLe a c := by
    intro a b c hab hbc
    simp only [priorityLe, decide_eq_true_eq] at *
    omega
  have htotal : ∀ a b : String × SheetMeta,
      priorityLe a b || priorityLe b a := by
    intro a b
    simp only [priorityLe]
    rcases Int.le_total a.2.priority b.2.priority with h | h <;> simp [h]
  have hsorted : sortedSheets [("a", metaP2), ("b", metaP1), ("c", metaP3)] =
      [("b", metaP1), ("a", metaP2), ("c", metaP3)] := by
    simp [sortedSheets, List.mergeSort, priorityLe, metaP1, metaP2, metaP3]
  refine ⟨fun meta => ⟨?_, List.mergeSort_perm meta _⟩, hsorted, ?_⟩
  · have h := List.sorted_mergeSort htrans htotal meta
    exact h.imp (fun hab => by simpa [priorityLe] using hab)
  · simp only [create_custom_activities]
    rw [hsorted]
    decide

/-! ### C7 — unsupported parameter types -/

/-- A parameter row with the unsupported type tag `int` and parameter
number `1`. -/
def badTypeRow : ParamRow :=
  { eiActivityName := some "a", paramNumber := "1", typ := "int",
    defaultVal := some "2", minVal := none, maxVal := none, stdVal := none,
    distrib := none, description := none, label := none,
    valuesStr := none, weightsStr := none }

/-- An environment whose lookups behave like `exEnv` but whose
side-effecting framework calls (`newActivity`, `updateExchanges`)
raise. -/
def updFailEnv : Env :=
  { exEnv with
    newActivityOk := fun _ _ _ _ => false,
    updateExchangesOk := fun _ _ => false }

/-- An environment whose lookups behave like `exEnv` but whose
`copyActivity` call raises. -/
def copyFailEnv : Env :=
  { exEnv with copyActivity := fun _ _ _ => none }

/-- **C5.** No failure of a single unit of work halts the run: each
failure kind is logged and processing continues with the next row or
sheet.  (a) A custom-sheet row whose activity resolution fails is
logged and skipped, the remaining rows being processed as if it were
absent; (b) likewise for a row whose parameter-expression evaluation
fails; (c) likewise for a parameter row whose parameter construction
raises; (d) a failing create-activity call at the end of a custom sheet
is logged and the sheet still returns normally (so the sheet loop
continues); (e) a failing find step of a modified sheet is logged and
the sheet returns normally; (f) likewise for a failing copy call after
a successful find; (g) a modified-sheet row whose expression
evaluation fails is logged and skipped, the exchange dict unchanged by
it and the remaining rows still processed; (h) a failing batch
exchange update of a modified sheet is logged and the sheet returns
normally; (i) a foreground row whose activity resolution fails is
logged and skipped, the remaining rows still processed; (j) likewise
for a foreground row whose evaluation fails; (k) a failing foreground
create call is logged and the remaining rows are still processed.  All
embedded builders are total functions, mirroring that every such
failure is caught inside the source functions, so no exception escapes
to their caller. -/
theorem builders_continue_after_failures :
    (∀ (env : Env) (reg : Registry) (db s : String) (row : ActRow)
        (rest : List ActRow) (acc : List (Activity × Param)) (ei : String)
        (lk : List LogEvent),
      row.eiActivityName = some ei →
      find_activity env ei row.loc row.customName row.modifiedName db =
        (none, lk) →
      processCustomRows env reg db s (row :: rest) acc =
        ((processCustomRows env reg db s rest acc).1,
          lk ++ LogEvent.customUnresolved s ::
            (processCustomRows env reg db s rest acc).2)) ∧
    (∀ (env : Env) (reg : Registry) (db s : String) (row : ActRow)
        (rest : List ActRow) (acc : List (Activity × Param)) (ei : String)
        (act : Activity) (lk : List LogEvent),
      row.eiActivityName = some ei →
      find_activity env ei row.loc row.customName row.modifiedName db =
        (some act, lk) →
      env.evalExpr reg (compositeName s row.paramNumber) = none →
      processCustomRows env reg db s (row :: rest) acc =
        ((processCustomRows env reg db s rest acc).1,
          lk ++ LogEvent.customEvalError s ::
            (processCustomRows env reg db s rest acc).2)) ∧
    (∀ (env : Env) (reg : Registry) (s : String) (row : ParamRow)
        (rest : List ParamRow),
      row.eiActivityName.isSome →
      mkParam env (compositeName s row.paramNumber) row = Except.error () →
      process_parameters env (row :: rest) reg s =
        ((process_parameters env rest reg s).1,
          LogEvent.paramError (compositeName s row.paramNumber) ::
            (process_parameters env rest reg s).2)) ∧
    (∀ (env : Env) (reg : Registry) (db s : String) (meta : SheetMeta)
        (rows : List ActRow),
      env.newActivityOk db (some s) meta.unit
        (processCustomRows env reg db s rows []).1 = false →
      processCustomSheet env reg db s meta rows =
        (LogEvent.processingSheet s ::
          (processCustomRows env reg db s rows []).2 ++
            [LogEvent.customCreateError s],
          [FwCall.newActivity db (some s) meta.unit
            (processCustomRows env reg db s rows []).1])) ∧
    (∀ (env : Env) (reg : Registry) (db s : String) (meta : SheetMeta)
        (rows : List ActRow),
      env.findTechActLoc meta.originalName meta.originalLoc = none →
      processModifiedSheet env reg db s meta rows =
        ([LogEvent.copyOrUpdateError s], [])) ∧
    (∀ (env : Env) (reg : Registry) (db s : String) (meta : SheetMeta)
        (rows : List ActRow) (orig : Activity),
      env.findTechActLoc meta.originalName meta.originalLoc = some orig →
      env.copyActivity db orig s = none →
      processModifiedSheet env reg db s meta rows =
        ([LogEvent.copyOrUpdateError s], [])) ∧
    (∀ (env : Env) (reg : Registry) (s : String) (row : ActRow)
        (rest : List ActRow) (d : List (Option String × Param)),
      env.evalExpr reg (compositeName s row.paramNumber) = none →
      processModifiedRows env reg s (row :: rest) d =
        ((processModifiedRows env reg s rest d).1,
          LogEvent.modifiedEvalError (compositeName s row.paramNumber) ::
            (processModifiedRows env reg s rest d).2)) ∧
    (∀ (env : Env) (reg : Registry) (db s : String) (meta : SheetMeta)
        (rows : List ActRow) (orig newAct : Activity),
      env.findTechActLoc meta.originalName meta.originalLoc = some orig →
      env.copyActivity db orig s = some newAct →
      env.updateExchangesOk newAct
        (processModifiedRows env reg s rows []).1 = false →
      processModifiedSheet env reg db s meta rows =
        (LogEvent.copiedActivity s ::
          (processModifiedRows env reg s rows []).2 ++
            [LogEvent.updateExchangesError s],
          [FwCall.copyActivity db orig s,
           FwCall.updateExchanges newAct
             (processModifiedRows env reg s rows []).1])) ∧
    (∀ (env : Env) (reg : Registry) (db fg : String) (row : ActRow)
        (rest : List ActRow) (ei : String) (lk : List LogEvent),
      row.eiActivityName = some ei →
      find_activity env ei row.loc row.customName row.modifiedName db =
        (none, lk) →
      create_foreground env (row :: rest) fg db reg =
        (lk ++ LogEvent.foregroundUnresolved row.lcaName ::
          (create_foreground env rest fg db reg).1,
          (create_foreground env rest fg db reg).2)) ∧
    (∀ (env : Env) (reg : Registry) (db fg : String) (row : ActRow)
        (rest : List ActRow) (ei : String) (act : Activity)
        (lk : List LogEvent),
      row.eiActivityName = some ei →
      find_activity env ei row.loc row.customName row.modifiedName db =
        (some act, lk) →
      env.evalExpr reg (compositeName fg row.paramNumber) = none →
      create_foreground env (row :: rest) fg db reg =
        (lk ++ LogEvent.foregroundEvalError row.lcaName ::
          (create_foreground env rest fg db reg).1,
          (create_foreground env rest fg db reg).2)) ∧
    (∀ (env : Env) (reg : Registry) (db fg : String) (row : ActRow)
        (rest : List ActRow) (ei : String) (act : Activity)
        (lk : List LogEvent) (v : Param),
      row.eiActivityName = some ei →
      find_activity env ei row.loc row.customName row.modifiedName db =
        (some act, lk) →
      env.evalExpr reg (compositeName fg row.paramNumber) = some v →
      env.newActivityOk db row.lcaName "unit" [(act, v)] = false →
      create_foreground env (row :: rest) fg db reg =
        (lk ++ LogEvent.foregroundCreateError row.lcaName ::
          (create_foreground env rest fg db reg).1,
          FwCall.newActivity db row.lcaName "unit" [(act, v)] ::
            (create_foreground env rest fg db reg).2)) := by
  refine ⟨?_, ?_, ?_, ?_, ?_, ?_, ?_, ?_, ?_, ?_, ?_⟩
  · intro env reg db s row rest acc ei lk hei hfind
    cases hrec : processCustomRows env reg db s rest acc with
    | mk m l => simp [processCustomRows, hei, hfind, hrec]
  · intro env reg db s row rest acc ei act lk hei hfind heval
    cases hrec : processCustomRows env reg db s rest acc with
    | mk m l => simp [processCustomRows, hei, hfind, heval, hrec]
  · intro env reg s row rest hname hmk
    have h1 : row.eiActivityName.isNone = false := by
      cases h : row.eiActivityName with
      | none => rw [h] at hname; simp at hname
      | some a => simp
    cases hrec : process_parameters env rest reg s with
    | mk m l => simp [process_parameters, h1, hmk, hrec]
  · intro env reg db s meta rows hok
    cases hrec : processCustomRows env reg db s rows [] with
    | mk acc rowLog =>
      rw [hrec] at hok
      simp [processCustomSheet, hrec, hok]
  · intro env reg db s meta rows hfind
    simp [processModifiedSheet, hfind]
  · intro env reg db s meta rows orig hfind hcopy
    simp [processModifiedSheet, hfind, hcopy]
  · intro env reg s row rest d heval
    cases hrec : processModifiedRows env reg s rest d with
    | mk m l => simp [processModifiedRows, heval, hrec]
  · intro env reg db s meta rows orig newAct hfind hcopy hupd
    cases hrec : processModifiedRows env reg s rows [] with
    | mk exDict rowLog =>
      rw [hrec] at hupd
      simp [processModifiedSheet, hfind, hcopy, hrec, hupd]
  · intro env reg db fg row rest ei lk hei hfind
    cases hrec : create_foreground env rest fg db reg with
    | mk l f => simp [create_foreground, hei, hfind, hrec]
  · intro env reg db fg row rest ei act lk hei hfind heval
    cases hrec : create_foreground env rest fg db reg with
    | mk l f => simp [create_foreground, hei, hfind, heval, hrec]
  · intro env reg db fg row rest ei act lk v hei hfind heval hok
    cases hrec : create_foreground env rest fg db reg with
    | mk l f => simp [create_foreground, hei, hfind, heval, hok, hrec]

/-- Witness for C5, instantiating every failure kind at concrete
inputs: an unresolvable custom row, a custom row with a failing
expression, a parameter row with a failing construction, a failing
create-activity call, a failing find step, a failing copy call, a
modified row with a failing expression, a failing batch update, an
unresolvable foreground row, a foreground row with a failing
expression, and a failing foreground create call. -/
theorem builders_continue_after_failures_witness :
    (find_activity failEnv "x" none none none "OS" =
        (none, [LogEvent.findBaseFailed "x" none]) ∧
      processCustomRows failEnv [] "OS" "s" [dataActRow] [] =
        ((processCustomRows failEnv [] "OS" "s" [] []).1,
          [LogEvent.findBaseFailed "x" none] ++ LogEvent.customUnresolved "s" ::
            (processCustomRows failEnv [] "OS" "s" [] []).2)) ∧
    (exEnv.evalExpr [] "s_1" = none ∧
      processCustomRows exEnv [] "OS" "s" [exRow1] [] =
        ((processCustomRows exEnv [] "OS" "s" [] []).1,
          [] ++ LogEvent.customEvalError "s" ::
            (processCustomRows exEnv [] "OS" "s" [] []).2)) ∧
    (mkParam exEnv "s_1" badTypeRow = Except.error () ∧
      process_parameters exEnv [badTypeRow] [] "s" =
        ((process_parameters exEnv [] [] "s").1,
          LogEvent.paramError "s_1" ::
            (process_parameters exEnv [] [] "s").2)) ∧
    (updFailEnv.newActivityOk "OS" (some "s") "kg" [] = false ∧
      processCustomSheet updFailEnv [] "OS" "s" customMeta [] =
        (LogEvent.processingSheet "s" ::
          (processCustomRows updFailEnv [] "OS" "s" [] []).2 ++
            [LogEvent.customCreateError "s"],
          [FwCall.newActivity "OS" (some "s") customMeta.unit
            (processCustomRows updFailEnv [] "OS" "s" [] []).1])) ∧
    (failEnv.findTechActLoc "act1" "GLO" = none ∧
      processModifiedSheet failEnv [] "OS" "mod" modMeta [] =
        ([LogEvent.copyOrUpdateError "mod"], [])) ∧
    (copyFailEnv.copyActivity "OS" 21 "mod" = none ∧
      processModifiedSheet copyFailEnv [] "OS" "mod" modMeta [] =
        ([LogEvent.copyOrUpdateError "mod"], [])) ∧
    (exEnv.evalExpr [] "mod_2" = none ∧
      processModifiedRows exEnv [] "mod" [dataActRow] [] =
        ((processModifiedRows exEnv [] "mod" [] []).1,
          LogEvent.modifiedEvalError "mod_2" ::
            (processModifiedRows exEnv [] "mod" [] []).2)) ∧
    (updFailEnv.updateExchangesOk 121 [] = false ∧
      processModifiedSheet updFailEnv [] "OS" "mod" modMeta [] =
        (LogEvent.copiedActivity "mod" ::
          (processModifiedRows updFailEnv [] "mod" [] []).2 ++
            [LogEvent.updateExchangesError "mod"],
          [FwCall.copyActivity "OS" 21 "mod",
           FwCall.updateExchanges 121
             (processModifiedRows updFailEnv [] "mod" [] []).1])) ∧
    (find_activity failEnv "x" none none none "OS" =
        (none, [LogEvent.findBaseFailed "x" none]) ∧
      create_foreground failEnv [dataActRow] "s" "OS" [] =
        ([LogEvent.findBaseFailed "x" none] ++
          LogEvent.foregroundUnresolved none ::
            (create_foreground failEnv [] "s" "OS" []).1,
          (create_foreground failEnv [] "s" "OS" []).2)) ∧
    (exEnv.evalExpr [] "s_1" = none ∧
      create_foreground exEnv [exRow1] "s" "OS" [] =
        ([] ++ LogEvent.foregroundEvalError (some "alg1") ::
          (create_foreground exEnv [] "s" "OS" []).1,
          (create_foreground exEnv [] "s" "OS" []).2)) ∧
    (updFailEnv.newActivityOk "OS" (some "alg1") "unit" [(22, 2)] = false ∧
      create_foreground updFailEnv [exRow1] "s" "OS" [("s_1", 2)] =
        ([] ++ LogEvent.foregroundCreateError (some "alg1") ::
          (create_foreground updFailEnv [] "s" "OS" [("s_1", 2)]).1,
          FwCall.newActivity "OS" (some "alg1") "unit" [(22, 2)] ::
            (create_foreground updFailEnv [] "s" "OS" [("s_1", 2)]).2)) := by
  have h := builders_continue_after_failures
  refine ⟨⟨by decide, ?_⟩, ⟨by decide, ?_⟩, ⟨rfl, ?_⟩, ⟨by decide, ?_⟩,
    ⟨by decide, ?_⟩, ⟨by decide, ?_⟩, ⟨by decide, ?_⟩, ⟨by decide, ?_⟩,
    ⟨by decide, ?_⟩, ⟨by decide, ?_⟩, ⟨by decide, ?_⟩⟩
  · exact h.1 failEnv [] "OS" "s" dataActRow [] [] "x"
      [LogEvent.findBaseFailed "x" none] (by decide) (by decide)
  · exact h.2.1 exEnv [] "OS" "s" exRow1 [] [] "act1" 22 []
      (by decide) (by decide) (by decide)
  · exact h.2.2.1 exEnv [] "s" badTypeRow [] (by decide) rfl
  · exact h.2.2.2.1 updFailEnv [] "OS" "s" customMeta [] (by decide)
  · exact h.2.2.2.2.1 failEnv [] "OS" "mod" modMeta [] (by decide)
  · exact h.2.2.2.2.2.1 copyFailEnv [] "OS" "mod" modMeta [] 21
      (by decide) (by decide)
  · exact h.2.2.2.2.2.2.1 exEnv [] "mod" dataActRow [] [] (by decide)
  · exact h.2.2.2.2.2.2.2.1 updFailEnv [] "OS" "mod" modMeta [] 21 121
      (by decide) (by decide) (by decide)
  · exact h.2.2.2.2.2.2.2.2.1 failEnv [] "OS" "s" dataActRow [] "x"
      [LogEvent.findBaseFailed "x" none] (by decide) (by decide)
  · exact h.2.2.2.2.2.2.2.2.2.1 exEnv [] "OS" "s" exRow1 [] "act1" 22 []
      (by decide) (by decide) (by decide)
  · exact h.2.2.2.2.2.2.2.2.2.2 updFailEnv [("s_1", 2)] "OS" "s" exRow1 []
      "act1" 22 [] 2 (by decide) (by decide) (by decide) (by decide)

/-! ### C10 — exactly one create call per custom sheet -/

theorem processCustomRows_lcaName_irrelevant (env : Env) (reg : Registry)
    (db s : String) (f : ActRow → Option String) (rows : List ActRow)
    (acc : List (Activity × Param)) :
    processCustomRows env reg db s
        (rows.map (fun r => { r with lcaName := f r })) acc =
      processCustomRows env reg db s rows acc := by
  induction rows generalizing acc with
  | nil => rfl
  | cons row rest ih =>
    cases row with
    | mk ei loc pn lca cn mn =>
      simp only [List.map_cons, processCustomRows]
      cases ei with
      | none => rfl
      | some e =>
        simp only
        cases hfind : find_activity env e loc cn mn db with
        | mk found lk =>
          cases found with
          | none => simp [hfind, ih]
          | some act =>
            cases heval : env.evalExpr reg (compositeName s pn) with
            | none => simp [hfind, heval, ih]
            | some v => simp [hfind, heval, ih]

/-- **C10.** For every custom sheet the builder issues exactly one
create-activity call to the framework, after the row loop: the call
trace of `processCustomSheet` is the single `newActivity` call naming
the new activity after the *sheet name* with the *sheet-metadata unit*
and carrying the accumulated exchange map — whether or not the
framework call then succeeds, and even when the accumulated map is
empty.  The per-row `LCA algebraic name` column, though read into the
row, is never used on the custom path: rewriting it arbitrarily in
every row changes nothing in the sheet's output.  Concretely, a sheet
whose first row is a terminator still produces the one create call,
with an empty exchange map. -/
theorem custom_sheet_single_create_call :
    (∀ (env : Env) (reg : Registry) (db s : String) (meta : SheetMeta)
        (rows : List ActRow),
      (processCustomSheet env reg db s meta rows).2 =
        [FwCall.newActivity db (some s) meta.unit
          (processCustomRows env reg db s rows []).1]) ∧
    (∀ (env : Env) (reg : Registry) (db s : String) (meta : SheetMeta)
        (rows : List ActRow) (f : ActRow → Option String),
      processCustomSheet env reg db s meta
          (rows.map (fun r => { r with lcaName := f r })) =
        processCustomSheet env reg db s meta rows) ∧
    (processCustomSheet exEnv [] "OS" "s" customMeta [termActRow]).2 =
      [FwCall.newActivity "OS" (some "s") "kg" []] := by
  refine ⟨fun env reg db s meta rows => ?_, fun env reg db s meta rows f => ?_,
    by decide⟩
  · cases hrec : processCustomRows env reg db s rows [] with
    | mk acc rowLog => simp [processCustomSheet, hrec]
  · simp [processCustomSheet, processCustomRows_lcaName_irrelevant]

